import Mathlib

/-!
A shallow embedding of the schema-derivation and row-flattening core of the
OData-Connector Apps Script (src/src/main.js), together with theorems checking
the natural-language specification against it.

Modelling conventions:
* JavaScript objects are association lists of own properties; prototype-chain
  lookups (e.g. a field literally named "toString") are outside the model.
* JSON numbers are carried as their decimal source literal, since no verified
  property depends on numeric arithmetic, only on string rendering.
* Code that can throw a TypeError (or provably never terminate) is embedded in
  the Except Unit monad; Except.error () stands for "no value is returned".
* Machine strings are Lean Strings; all character-level operations
  (regex replaces of single-character classes, substring tests) are embedded
  as the corresponding List Char operations.
-/

namespace ODataConnector

/-- JSON-ish runtime values flowing through the connector. -/
inductive JVal where
  | null
  | bool (b : Bool)
  | num (lit : String)
  | str (s : String)
  | arr (elems : List JVal)
  | obj (props : List (String × JVal))

/-- Lookup of an own property on a JS object (association list, first match). -/
def jLookup : List (String × JVal) → String → Option JVal
  | [], _ => none
  | (k, v) :: rest, key => if k == key then some v else jLookup rest key

/-- The property store backing the global metaDataMap: name to kind strings.
In the source this is a JS Map object, but every write uses bracket notation
(main.js line 573), which creates ordinary object properties, and every read
uses bracket notation too, so the observable state is a plain property
dictionary. -/
abbrev Props := List (String × String)

/-- Bracket-notation property read (undefined is none). -/
def propGet : Props → String → Option String
  | [], _ => none
  | (k, v) :: rest, key => if k == key then some v else propGet rest key

/-- Bracket-notation property write: updates in place, else appends
(JS objects keep insertion order for string keys). -/
def propSet : Props → String → String → Props
  | [], key, v => [(key, v)]
  | (k, v') :: rest, key, v =>
    if k == key then (k, v) :: rest else (k, v') :: propSet rest key v

/-- Embedding of the call metaDataMap.clear() at main.js line 515.
Map.prototype.clear empties only the internal [[MapData]] entry list of the
Map object; it does not remove ordinary properties created by bracket-notation
assignment. Since the source never calls Map.prototype.set, the internal entry
list is always empty and clear() leaves the observable property dictionary
untouched. -/
def mapClear (m : Props) : Props := m

/-- Metadata-collection phase of getFields (main.js lines 515 and 566-575):
clear() the map, then for every descriptor whose type is structure or repeat,
record name -> type via bracket assignment. -/
structure FieldDesc where
  path : String
  name : String
  type : String
deriving DecidableEq, Repr

def buildMetaDataMap (prior : Props) (ds : List FieldDesc) : Props :=
  ds.foldl
    (fun m d =>
      if d.type == "structure" || d.type == "repeat" then propSet m d.name d.type
      else m)
    (mapClear prior)

/-- Google Data Studio field data types used by the connector. -/
inductive GDSType where
  | NUMBER
  | TEXT
  | BOOLEAN
  | YEAR_MONTH_DAY
  | YEAR_MONTH_DAY_HOUR
  | LATITUDE_LONGITUDE
  | URL
deriving DecidableEq, Repr

/-- Lookup table from OData type names to (concept role, GDS data type),
from getGDSType (main.js lines 766-811). -/
def getGDSType (odataType : String) : String × GDSType :=
  match odataType with
  | "int" => ("metric", GDSType.NUMBER)
  | "string" => ("dimension", GDSType.TEXT)
  | "boolean" => ("metric", GDSType.BOOLEAN)
  | "decimal" => ("metric", GDSType.NUMBER)
  | "date" => ("dimension", GDSType.YEAR_MONTH_DAY)
  | "time" => ("dimension", GDSType.TEXT)
  | "dateTime" => ("dimension", GDSType.YEAR_MONTH_DAY_HOUR)
  | "geopoint" => ("dimension", GDSType.LATITUDE_LONGITUDE)
  | "geotrace" => ("dimension", GDSType.TEXT)
  | "geoshape" => ("dimension", GDSType.TEXT)
  | "binary" => ("dimension", GDSType.URL)
  | "barcode" => ("dimension", GDSType.TEXT)
  | "intent" => ("dimension", GDSType.TEXT)
  | _ => ("dimension", GDSType.TEXT)

/-- A schema column as assembled by getFields: sequential id, flattened name,
GDS data type and concept role (dimension or metric). -/
structure Field where
  id : Nat
  name : String
  dataType : GDSType
  concept : String
deriving DecidableEq, Repr

/-- Character-list split on a single separator character. Every split in the
source uses a one-character separator (slash, dot, colon), so this is the
exact semantics of String.prototype.split there; it is structurally
recursive so that concrete instances evaluate inside the kernel. -/
def splitOnCharList (sep : Char) : List Char → List (List Char)
  | [] => [[]]
  | c :: rest =>
    let r := splitOnCharList sep rest
    if c = sep then [] :: r
    else
      match r with
      | [] => [[c]]
      | h :: t => (c :: h) :: t

/-- String split on a single separator character. -/
def strSplitOnChar (s : String) (sep : Char) : List String :=
  (splitOnCharList sep s.data).map fun cs => ⟨cs⟩

/-- A node name is transparent for table classification when it is absent
from the metadata map or mapped to structure (main.js line 610 loop
condition on the last segment). -/
def transparent (m : Props) (s : String) : Bool :=
  propGet m s == none || propGet m s == some "structure"

/-- The while-pop loop of main.js lines 610-612, rendered on the reversed
segment list: popping the last element while it is transparent is dropping
from the front of the reversal. -/
def stripTransparentRev (m : Props) : List String → List String
  | [] => []
  | s :: rest =>
    if transparent m s then stripTransparentRev m rest else s :: rest

/-- Table classification applied to an already split path: pop transparent
trailing segments, splice(0,1) away the first element, join with "."
(main.js lines 606-617). -/
def chainOfSegs (m : Props) (segs : List String) : String :=
  String.intercalate "." (((stripTransparentRev m segs.reverse).reverse).drop 1)

/-- Owning-table classification of a descriptor path (main.js lines 606-617):
split on "/", then reduce the segment list. -/
def schemaTableChain (m : Props) (path : String) : String :=
  chainOfSegs m (strSplitOnChar path '/')

/-- Spec rendering of the same classification (spec section 4.3,
classifyFieldTable): identical trailing reduction, but phrased as
"dropping the leading empty segment from the split" instead of
splice(0,1) on whatever is first. -/
def chainOfSegsSpec (m : Props) (segs : List String) : String :=
  let stripped := (stripTransparentRev m segs.reverse).reverse
  let remainder := if stripped.head? = some "" then stripped.tail else stripped
  String.intercalate "." remainder

/-- The while-pop loop of main.js lines 725-730 and 981-983 on the reversed
list: drop trailing segments while they are mapped to structure (unlike
table classification, absent names stop this loop). -/
def stripStructureRev (m : Props) : List String → List String
  | [] => []
  | s :: rest =>
    if propGet m s == some "structure" then stripStructureRev m rest else s :: rest

/-- Disambiguating suffix of a repeat table key, from addRepeatFields
(main.js lines 718-732) and responseToRows (lines 974-985): split the dotted
table name on ".", splice(-1,1) away the last element, splice(0,1) away the
first, pop trailing structure segments, join with "-". -/
def repeatSuffix (m : Props) (table : String) : String :=
  let tableKey := (strSplitOnChar table '.').dropLast.drop 1
  String.intercalate "-" (stripStructureRev m tableKey.reverse).reverse

/-- Spec rendering of the suffix (spec section 4.3, resolveRepeatTableKey):
strip the leading root marker first, then the table's own trailing repeat
name, then trailing group-kind segments, and join with "-". -/
def repeatSuffixSpec (m : Props) (table : String) : String :=
  let chain := ((strSplitOnChar table '.').drop 1).dropLast
  String.intercalate "-" (stripStructureRev m chain.reverse).reverse

/-- Linkage-column key for a repeat table without its leading slash
(main.js lines 988-991): __Submissions-id when the suffix is empty,
otherwise __Submissions-<suffix>-id. -/
def repeatLinkageKey (m : Props) (table : String) : String :=
  let tk := repeatSuffix m table
  if tk.length > 0 then "__Submissions-" ++ tk ++ "-id" else "__Submissions-id"

/-- The four synthetic dimension columns of the root table, from
addSubmissionFields (main.js lines 684-710). -/
def addSubmissionFields (i : Nat) : List Field :=
  [ ⟨i, "__system/submitterName", GDSType.TEXT, "dimension"⟩,
    ⟨i + 1, "__system/reviewState", GDSType.TEXT, "dimension"⟩,
    ⟨i + 2, "__id", GDSType.TEXT, "dimension"⟩,
    ⟨i + 3, "__system/submissionDate", GDSType.YEAR_MONTH_DAY_HOUR, "dimension"⟩ ]

/-- The two synthetic dimension columns of a repeat table, from
addRepeatFields (main.js lines 717-749): the linkage id column and the
row id column, both prefixed with the slash-joined table path. -/
def addRepeatFields (m : Props) (table : String) (i : Nat) : List Field :=
  let tablePath := String.intercalate "/" ((strSplitOnChar table '.').drop 1)
  let key := "/" ++ repeatLinkageKey m table
  [ ⟨i, tablePath ++ key, GDSType.TEXT, "dimension"⟩,
    ⟨i + 1, tablePath ++ "/__id", GDSType.TEXT, "dimension"⟩ ]

/-- Embedding of the JS global regex replace of the dash character with
underscore (main.js line 642): a single-character pattern and replacement,
hence a character map. -/
def dashToUnderscore (s : String) : String :=
  ⟨s.data.map fun c => if c = '-' then '_' else c⟩

/-- The descriptor scan of getFields (main.js lines 595-664): skip structural
and instanceID descriptors, skip descriptors owned by another table, then
append one column per remaining leaf (plus the synthetic accuracy metric
right after a geo column), threading the sequential id counter. -/
def fieldsLoop (m : Props) (tn : List String) (urt : String) :
    List FieldDesc → Nat → List Field
  | [], _ => []
  | d :: ds, i =>
    if d.type == "structure" || d.name == "instanceID" || d.type == "repeat" then
      fieldsLoop m tn urt ds i
    else
      let chain := schemaTableChain m d.path
      if urt == "Submissions" && tn.contains chain then
        fieldsLoop m tn urt ds i
      else if urt != "Submissions" && chain != urt.drop 12 then
        fieldsLoop m tn urt ds i
      else
        let ct := getGDSType d.type
        let nm := dashToUnderscore (d.path.drop 1)
        if ct.1 == "dimension" then
          if ct.2 == GDSType.LATITUDE_LONGITUDE then
            ⟨i, nm, ct.2, "dimension"⟩ ::
            ⟨i + 1, nm ++ "-accuracy", GDSType.NUMBER, "metric"⟩ ::
            fieldsLoop m tn urt ds (i + 2)
          else
            ⟨i, nm, ct.2, "dimension"⟩ :: fieldsLoop m tn urt ds (i + 1)
        else if ct.1 == "metric" then
          ⟨i, nm, ct.2, "metric"⟩ :: fieldsLoop m tn urt ds (i + 1)
        else
          fieldsLoop m tn urt ds (i + 1)

/-- Full getFields (main.js lines 513-677) for a user requested table:
rebuild the metadata map on top of its prior state, emit the synthetic
columns for the root or a repeat table, process the stored table-name list
(filter out Submissions, substr(12)), then run the descriptor scan with the
counter advanced past the synthetic columns. -/
def getFieldsModel (prior : Props) (storedTableNames : List String)
    (urt : String) (ds : List FieldDesc) (i : Nat) : List Field :=
  let m := buildMetaDataMap prior ds
  let synth :=
    if urt == "Submissions" then addSubmissionFields i else addRepeatFields m urt i
  let tn := (storedTableNames.filter (· != "Submissions")).map (·.drop 12)
  synth ++ fieldsLoop m tn urt ds (i + synth.length)

/-- Substring containment on character lists, embedding
String.prototype.includes. -/
def charsContain (pat : List Char) : List Char → Bool
  | [] => pat.isEmpty
  | c :: rest => pat.isPrefixOf (c :: rest) || charsContain pat rest

/-- Embedding of handleGeoAccuracyField (main.js lines 1067-1074): when the
last segment contains "-accuracy", cut the last 9 characters off it and
append the two fixed segments "properties" and "accuracy". On an empty
segment list the source reads splitPath[-1] as undefined and the includes
call throws, hence the error case. -/
def handleGeoAccuracyField (segs : List String) : Except Unit (List String) :=
  match segs.getLast? with
  | none => Except.error ()
  | some last =>
    if charsContain "-accuracy".data last.data then
      Except.ok (segs.dropLast ++
        [⟨last.data.take (last.data.length - 9)⟩, "properties", "accuracy"])
    else
      Except.ok segs

/-- The non-root path-trimming loop of responseToRows (main.js lines
1010-1020): scan index i from the end while segs[i] is structure-kind or
absent from the metadata map, then slice(i + 1). The fuel argument is i + 1.
If i runs past the start of the array, segs[i] is undefined, the map is
probed at the coerced key "undefined", and when that probe is also
transparent the source loop never terminates: the error case. -/
def trimScan (m : Props) (segs : List String) : Nat → Except Unit Nat
  | 0 =>
    if transparent m "undefined" then Except.error () else Except.ok 0
  | n + 1 =>
    if transparent m ((segs.get? n).getD "") then trimScan m segs n
    else Except.ok (n + 1)

/-- Trim a non-root column path down to the segments inside its repeat table
(main.js lines 1010-1020). An empty list skips the loop entirely because of
the length guard and slices at 0. -/
def trimRepeatSegs (m : Props) (segs : List String) : Except Unit (List String) :=
  if segs.isEmpty then Except.ok segs
  else (trimScan m segs segs.length).map fun stop => segs.drop stop

/-- Walk a raw record one path segment at a time (main.js lines 1026-1041):
a null node or an absent key yields the ok-none outcome (the row gets null);
probing a key on a scalar is a thrown TypeError in JS, hence the error case.
Array nodes answer the membership test only for their literal index keys
(prototype and length properties are outside the model). -/
def navigate : JVal → List String → Except Unit (Option JVal)
  | v, [] => Except.ok (some v)
  | JVal.null, _ :: _ => Except.ok none
  | JVal.obj props, key :: rest =>
    match jLookup props key with
    | some v' => navigate v' rest
    | none => Except.ok none
  | JVal.arr elems, key :: rest =>
    match key.toNat? with
    | some j =>
      if h : j < elems.length ∧ key = toString j then
        navigate (elems.get ⟨j, h.1⟩) rest
      else Except.ok none
    | none => Except.ok none
  | JVal.bool _, _ :: _ => Except.error ()
  | JVal.num _, _ :: _ => Except.error ()
  | JVal.str _, _ :: _ => Except.error ()

mutual

/-- Element rendering used by Array.prototype.join: null renders empty,
booleans and numbers render as their literals, nested arrays join with a
comma, plain objects render as the default object tag. -/
def jsJoinElem : JVal → String
  | JVal.null => ""
  | JVal.bool b => cond b "true" "false"
  | JVal.num lit => lit
  | JVal.str s => s
  | JVal.arr l => String.intercalate "," (jsJoinElems l)
  | JVal.obj _ => "[object Object]"

/-- Rendering of a list of joined elements. -/
def jsJoinElems : List JVal → List String
  | [] => []
  | v :: rest => jsJoinElem v :: jsJoinElems rest

end

/-- One escaped character of JSON.stringify string output. Control
characters other than newline, carriage return and tab are left unescaped;
no verified property depends on them. -/
def jsonEscapeChar (c : Char) : String :=
  if c = '"' then "\\\""
  else if c = '\\' then "\\\\"
  else if c = '\n' then "\\n"
  else if c = '\r' then "\\r"
  else if c = '\t' then "\\t"
  else String.singleton c

/-- Quoted JSON string literal. -/
def jsonQuote (s : String) : String :=
  "\"" ++ String.join (s.data.map jsonEscapeChar) ++ "\""

mutual

/-- Embedding of JSON.stringify as invoked by convertData on structured
values (main.js line 1110). -/
def jsonStringify : JVal → String
  | JVal.null => "null"
  | JVal.bool b => cond b "true" "false"
  | JVal.num lit => lit
  | JVal.str s => jsonQuote s
  | JVal.arr l =>
    "\x5b" ++ String.intercalate "," (jsonStringifyElems l) ++ "\x5d"
  | JVal.obj props =>
    "\x7b" ++ String.intercalate "," (jsonStringifyProps props) ++ "\x7d"

/-- Serialized elements of a JSON array. -/
def jsonStringifyElems : List JVal → List String
  | [] => []
  | v :: rest => jsonStringify v :: jsonStringifyElems rest

/-- Serialized members of a JSON object. -/
def jsonStringifyProps : List (String × JVal) → List String
  | [] => []
  | (k, v) :: rest => (jsonQuote k ++ ":" ++ jsonStringify v) :: jsonStringifyProps rest

end

/-- The characters before the first occurrence of a separator sequence:
the element 0 of a split on a multi-character separator, which is all
constructFileURL uses of its split on "/v1" (main.js line 1125). -/
def beforeFirstSeq (sep : List Char) : List Char → List Char
  | [] => []
  | c :: rest =>
    if sep.isPrefixOf (c :: rest) then [] else c :: beforeFirstSeq sep rest

/-- External configuration convertData and constructFileURL read from the
property store: the stored base path, project id and form id. -/
structure ConvertCtx where
  path : String
  projectId : String
  xmlFormId : String
deriving Repr

/-- Embedding of constructFileURL (main.js lines 1118-1137). An absent
instance id concatenates as the text "undefined", matching JS string
coercion of undefined. -/
def constructFileURL (ctx : ConvertCtx) (iid : Option String) (fileName : JVal) : String :=
  let mediaPath := String.mk (beforeFirstSeq "/v1".data ctx.path.data) ++ "/#/dl"
  String.intercalate "/"
    [ mediaPath, "projects", ctx.projectId, "forms", ctx.xmlFormId,
      "Submissions", "uuid%3A" ++ (iid.getD "undefined"), "attachments",
      jsJoinElem fileName ]

/-- Removal of every dash and capital T character, embedding the global
single-character-class regex replace of main.js line 1094. -/
def stripDashT (s : String) : String :=
  ⟨s.data.filter fun c => !(c = '-' || c = 'T')⟩

/-- Embedding of convertData (main.js lines 1080-1116). null passes through.
URL builds the download link. The datetime and date branches call
String.prototype.replace, which throws on non-strings. The geo branch reads
data.coordinates and needs an array there to slice, reverse and join,
throwing otherwise. TEXT serializes objects carrying a type discriminator
and passes everything else through, as do the remaining types. -/
def convertData (ctx : ConvertCtx) (iid : Option String)
    (data : JVal) (ty : GDSType) : Except Unit JVal :=
  match data with
  | JVal.null => Except.ok JVal.null
  | _ =>
    match ty with
    | GDSType.URL => Except.ok (JVal.str (constructFileURL ctx iid data))
    | GDSType.YEAR_MONTH_DAY_HOUR =>
      match data with
      | JVal.str s =>
        Except.ok (JVal.str (((strSplitOnChar (stripDashT s) ':').headD "")))
      | _ => Except.error ()
    | GDSType.YEAR_MONTH_DAY =>
      match data with
      | JVal.str s => Except.ok (JVal.str ⟨s.data.filter (· ≠ '-')⟩)
      | _ => Except.error ()
    | GDSType.LATITUDE_LONGITUDE =>
      match data with
      | JVal.obj props =>
        match jLookup props "coordinates" with
        | some (JVal.arr l) =>
          Except.ok (JVal.str
            (String.intercalate ", " (((l.take 2).reverse).map jsJoinElem)))
        | _ => Except.error ()
      | _ => Except.error ()
    | GDSType.TEXT =>
      match data with
      | JVal.obj props =>
        if (jLookup props "type").isSome then
          Except.ok (JVal.str (jsonStringify (JVal.obj props)))
        else Except.ok (JVal.obj props)
      | _ => Except.ok data
    | _ => Except.ok data

/-- An output row: the values array pushed for one submission record
(main.js lines 998 and 1051). -/
structure Row where
  values : List JVal

/-- Row-identity extraction of responseToRows (main.js lines 969-996): read
the row-id key (the plain id for the root table, the linkage key for a
repeat table) and split on the first colon. Reading the key off a
non-object, or calling split on anything but a string value, throws. The
element after the colon may be absent (undefined in JS), hence the Option. -/
def extractInstanceID (m : Props) (table : String) (rec : JVal) :
    Except Unit (Option String) :=
  let key := if table == "Submissions" then "__id" else repeatLinkageKey m table
  match rec with
  | JVal.obj props =>
    match jLookup props key with
    | some (JVal.str s) => Except.ok ((strSplitOnChar s ':').get? 1)
    | _ => Except.error ()
  | _ => Except.error ()

/-- Sequential effectful map: the embedding of Array.prototype.map and
forEach over code that may throw; a throw anywhere aborts the whole
traversal, as a JS exception would. -/
def mapME (f : α → Except Unit β) : List α → Except Unit (List β)
  | [] => Except.ok []
  | a :: as =>
    match f a with
    | Except.error e => Except.error e
    | Except.ok b =>
      match mapME f as with
      | Except.error e => Except.error e
      | Except.ok bs => Except.ok (b :: bs)

/-- Projection of one requested column against one record (main.js lines
999-1049): split the column name on "/", trim repeat segments when the table
is not the root, rewrite accuracy paths, walk the record, and either push
null on a missing key or convert the terminal value. -/
def projectField (m : Props) (isSub : Bool) (ctx : ConvertCtx)
    (iid : Option String) (rec : JVal) (f : Field) : Except Unit JVal := do
  let segs := strSplitOnChar f.name '/'
  let segs ← if isSub then pure segs else trimRepeatSegs m segs
  let segs ← handleGeoAccuracyField segs
  match ← navigate rec segs with
  | none => pure JVal.null
  | some v => convertData ctx iid v f.dataType

/-- Projection of one record into one row (main.js lines 960-1052 body). -/
def projectRecord (m : Props) (table : String) (ctx : ConvertCtx)
    (cols : List Field) (rec : JVal) : Except Unit Row := do
  let iid ← extractInstanceID m table rec
  let vals ← mapME (projectField m (table == "Submissions") ctx iid rec) cols
  pure ⟨vals⟩

/-- Embedding of responseToRows (main.js lines 942-1053): map every raw
record to a row of converted values for the requested columns. -/
def responseToRows (table : String) (m : Props) (ctx : ConvertCtx)
    (cols : List Field) (recs : List JVal) : Except Unit (List Row) :=
  mapME (projectRecord m table ctx cols) recs

/-- A fixed conversion context for concrete scenarios. -/
def ctx0 : ConvertCtx := ⟨"https://sandbox.getodk.cloud/v1", "4", "formid"⟩

/-- A requested column whose first navigation segment, after the accuracy
rewrite, is not the record's row-identity key. -/
def colAvoidsId (c : Field) : Bool :=
  match handleGeoAccuracyField (strSplitOnChar c.name '/') with
  | Except.ok (s :: _) => s != "__id"
  | _ => false

/-- A descriptor the getFields scan skips when the requested table is the
given non-root one: structural descriptors, the instanceID descriptor, and
leaves owned by a different table chain. -/
def leafSkipped (m : Props) (urt : String) (d : FieldDesc) : Prop :=
  d.type = "structure" ∨ d.name = "instanceID" ∨ d.type = "repeat" ∨
    schemaTableChain m d.path ≠ urt.drop 12

instance (m : Props) (urt : String) (d : FieldDesc) :
    Decidable (leafSkipped m urt d) := by
  unfold leafSkipped
  infer_instance

/-! Helper lemmas. -/

theorem stripTransparentRev_suffix (m : Props) :
    ∀ l : List String, stripTransparentRev m l <:+ l := by
  intro l
  induction l with
  | nil => exact List.suffix_refl _
  | cons s rest ih =>
    unfold stripTransparentRev
    by_cases h : transparent m s
    · simpa [h] using ih.trans (List.suffix_cons s rest)
    · simp [h]

theorem stripTransparentRev_reverse_prefix (m : Props) (segs : List String) :
    (stripTransparentRev m segs.reverse).reverse <+: segs := by
  have h := stripTransparentRev_suffix m segs.reverse
  have := List.reverse_prefix.mpr h
  simpa using this

/-! C1: table identity classification. -/

/-- C1. For every leaf field descriptor, the owning table identity is
computed by splitting the path on the slash, repeatedly dropping the last
segment while it is absent from the metadata index or mapped to group,
removing the leading empty segment, and joining the remainder with the dot;
the source's splice(0,1) agrees with the spec's "drop the leading empty
segment" whenever the split starts with the empty segment (every
slash-prefixed path). In particular the path of q3 nested in group1 nested
in repeat1 classifies to the table repeat1. -/
theorem C1_classify_table_chain :
    (∀ (m : Props) (segs : List String), segs.head? = some "" →
        chainOfSegs m segs = chainOfSegsSpec m segs) ∧
    schemaTableChain
        (buildMetaDataMap []
          [⟨"/repeat1", "repeat1", "repeat"⟩,
           ⟨"/repeat1/group1", "group1", "structure"⟩,
           ⟨"/repeat1/group1/q3", "q3", "string"⟩])
        "/repeat1/group1/q3" = "repeat1" := by
  constructor
  · intro m segs hhead
    unfold chainOfSegs chainOfSegsSpec
    cases hL : (stripTransparentRev m segs.reverse).reverse with
    | nil => simp
    | cons a t =>
      have hpre : (a :: t) <+: segs := hL ▸ stripTransparentRev_reverse_prefix m segs
      obtain ⟨r, hr⟩ := hpre
      have ha : a = "" := by
        have : segs.head? = some a := by rw [← hr]; rfl
        rw [hhead] at this
        exact (Option.some.inj this).symm
      simp [hL, ha]
  · rfl

/-- Witness for C1 at a concrete root-table leaf path split. -/
theorem C1_classify_table_chain_witness :
    (["", "q1"] : List String).head? = some "" ∧
    chainOfSegs [] ["", "q1"] = chainOfSegsSpec [] ["", "q1"] :=
  ⟨rfl, C1_classify_table_chain.1 [] ["", "q1"] rfl⟩

/-! C6: datetime conversion. -/

/-- C6 (counterexample to the claimed output). Converting the datetime
value 2021-03-17T12:34:56 does not return the claimed string 20210317T12:
the capital T is itself stripped by the replace, so nothing reinserts it. -/
theorem C6_datetime_claim_false :
    convertData ctx0 none (JVal.str "2021-03-17T12:34:56")
        GDSType.YEAR_MONTH_DAY_HOUR ≠
      Except.ok (JVal.str "20210317T12") := by
  intro h
  have e : convertData ctx0 none (JVal.str "2021-03-17T12:34:56")
      GDSType.YEAR_MONTH_DAY_HOUR = Except.ok (JVal.str "2021031712") := rfl
  rw [e] at h
  injection h with h
  injection h with h
  exact absurd h (by decide)

/-- C6 (amended). Converting 2021-03-17T12:34:56 with the datetime semantic
type strips the dash and T characters and takes the portion before the
first colon, producing 2021031712. -/
theorem C6_datetime_conversion :
    convertData ctx0 none (JVal.str "2021-03-17T12:34:56")
        GDSType.YEAR_MONTH_DAY_HOUR =
      Except.ok (JVal.str "2021031712") := rfl

/-! C8: the metadata map is not cleared between calls. -/

/-- C8 (code bug). After a second metadata-collection pass over an empty
descriptor list, the name-to-kind map still answers the entry recorded by
the first pass: Map.prototype.clear does not remove bracket-notation
properties, so the map is not repopulated fresh, contradicting the clearing
comment at main.js line 515 and the spec. -/
theorem C8_metaDataMap_stale_after_clear :
    propGet
        (buildMetaDataMap
          (buildMetaDataMap [] [⟨"/repeat1", "repeat1", "repeat"⟩]) [])
        "repeat1" = some "repeat" ∧
    buildMetaDataMap
        (buildMetaDataMap [] [⟨"/repeat1", "repeat1", "repeat"⟩]) [] ≠ [] :=
  ⟨rfl, by decide⟩

/-! C7: geo-coordinate conversion. -/

/-- C7. For every non-null geo value whose coordinates array has at least
two entries, conversion takes the first two coordinates, ignores the rest,
reverses them, and joins them with a comma and space; in particular the
longitude-latitude-altitude triple -122.33, 47.65, 0.0 converts to the
latitude-longitude string 47.65, -122.33. -/
theorem C7_geo_conversion :
    (∀ (ctx : ConvertCtx) (iid : Option String)
        (props : List (String × JVal)) (x y : JVal) (rest : List JVal),
        jLookup props "coordinates" = some (JVal.arr (x :: y :: rest)) →
        convertData ctx iid (JVal.obj props) GDSType.LATITUDE_LONGITUDE =
          Except.ok (JVal.str
            (String.intercalate ", " [jsJoinElem y, jsJoinElem x]))) ∧
    convertData ctx0 none
        (JVal.obj
          [("coordinates",
             JVal.arr [JVal.num "-122.33", JVal.num "47.65", JVal.num "0.0"]),
           ("type", JVal.str "Point")])
        GDSType.LATITUDE_LONGITUDE =
      Except.ok (JVal.str "47.65, -122.33") := by
  constructor
  · intro ctx iid props x y rest h
    simp [convertData, h]
  · rfl

/-- Witness for C7 at the concrete geo sample. -/
theorem C7_geo_conversion_witness :
    jLookup
        [("coordinates",
           JVal.arr [JVal.num "-122.33", JVal.num "47.65", JVal.num "0.0"]),
         ("type", JVal.str "Point")] "coordinates" =
      some (JVal.arr [JVal.num "-122.33", JVal.num "47.65", JVal.num "0.0"]) ∧
    convertData ctx0 none
        (JVal.obj
          [("coordinates",
             JVal.arr [JVal.num "-122.33", JVal.num "47.65", JVal.num "0.0"]),
           ("type", JVal.str "Point")])
        GDSType.LATITUDE_LONGITUDE =
      Except.ok (JVal.str
        (String.intercalate ", "
          [jsJoinElem (JVal.num "47.65"), jsJoinElem (JVal.num "-122.33")])) :=
  ⟨rfl, C7_geo_conversion.1 ctx0 none _ _ _ _ rfl⟩

/-! C9: unresolvable non-root table. -/

theorem fieldsLoop_all_skipped (m : Props) (tn : List String) (urt : String)
    (hurt : urt ≠ "Submissions") :
    ∀ (ds : List FieldDesc) (i : Nat),
      (∀ d ∈ ds, leafSkipped m urt d) → fieldsLoop m tn urt ds i = [] := by
  intro ds
  induction ds with
  | nil => intro i _; rfl
  | cons d ds ih =>
    intro i h
    have hd := h d (List.mem_cons_self d ds)
    have hrest : ∀ e ∈ ds, leafSkipped m urt e :=
      fun e he => h e (List.mem_cons_of_mem d he)
    have hb1 : (urt == "Submissions") = false := beq_eq_false_iff_ne.mpr hurt
    by_cases hb :
        (d.type == "structure" || d.name == "instanceID" || d.type == "repeat") = true
    · simp only [fieldsLoop, hb, if_true]
      exact ih i hrest
    · have hb' := hb
      simp only [Bool.or_eq_true, beq_iff_eq, not_or] at hb'
      have hchain : schemaTableChain m d.path ≠ urt.drop 12 := by
        rcases hd with h1 | h2 | h3 | h4
        · exact absurd h1 hb'.1.1
        · exact absurd h2 hb'.1.2
        · exact absurd h3 hb'.2
        · exact h4
      have hcb : (schemaTableChain m d.path != urt.drop 12) = true :=
        bne_iff_ne.mpr hchain
      simp only [fieldsLoop]
      rw [if_neg hb, if_neg (by simp [hb1]), if_pos (by simp [bne, hb1, hchain])]
      exact ih i hrest

/-- C9 (counterexample). A requested non-root table matching no leaf still
produces two columns, not an empty column list: the synthetic linkage and
row id columns are always emitted. -/
theorem C9_unresolvable_table_not_empty :
    (getFieldsModel [] [] "Submissions.nosuch"
        [⟨"/q1", "q1", "string"⟩] 0).length = 2 ∧
    getFieldsModel [] [] "Submissions.nosuch"
        [⟨"/q1", "q1", "string"⟩] 0 ≠ [] :=
  ⟨rfl, by decide⟩

/-- C9 (amended). If the requested table is non-root and matches no leaf
descriptor, schema building completes without any error and produces
exactly the two synthetic columns of addRepeatFields and nothing else. -/
theorem C9_unresolvable_table_amended (prior : Props) (tns : List String)
    (ds : List FieldDesc) (i : Nat) (table : String)
    (hurt : table ≠ "Submissions")
    (h : ∀ d ∈ ds, leafSkipped (buildMetaDataMap prior ds) table d) :
    getFieldsModel prior tns table ds i =
      addRepeatFields (buildMetaDataMap prior ds) table i ∧
    (getFieldsModel prior tns table ds i).length = 2 := by
  have hb1 : (table == "Submissions") = false := beq_eq_false_iff_ne.mpr hurt
  have hloop : ∀ j,
      fieldsLoop (buildMetaDataMap prior ds)
        ((tns.filter (· != "Submissions")).map (·.drop 12)) table ds j = [] :=
    fun j => fieldsLoop_all_skipped (buildMetaDataMap prior ds)
      ((tns.filter (· != "Submissions")).map (·.drop 12)) table hurt ds j h
  constructor
  · simp [getFieldsModel, hb1, hloop]
  · simp [getFieldsModel, hb1, hloop, addRepeatFields]

/-- Witness for C9 at a concrete unresolvable table. -/
theorem C9_unresolvable_table_amended_witness :
    ("Submissions.nosuch" : String) ≠ "Submissions" ∧
    (∀ d ∈ [(⟨"/q1", "q1", "string"⟩ : FieldDesc)],
        leafSkipped (buildMetaDataMap [] [⟨"/q1", "q1", "string"⟩])
          "Submissions.nosuch" d) ∧
    (getFieldsModel [] [] "Submissions.nosuch" [⟨"/q1", "q1", "string"⟩] 3 =
        addRepeatFields (buildMetaDataMap [] [⟨"/q1", "q1", "string"⟩])
          "Submissions.nosuch" 3 ∧
      (getFieldsModel [] [] "Submissions.nosuch"
          [⟨"/q1", "q1", "string"⟩] 3).length = 2) :=
  ⟨by decide, by decide,
    C9_unresolvable_table_amended [] [] _ 3 _ (by decide) (by decide)⟩

/-! C5: the two synthetic columns of a repeat table. -/

theorem dropLast_drop_one (l : List α) : l.dropLast.drop 1 = (l.drop 1).dropLast := by
  cases l with
  | nil => rfl
  | cons a t =>
    cases t with
    | nil => rfl
    | cons b u => rfl

theorem repeatSuffix_eq_spec (m : Props) (table : String) :
    repeatSuffix m table = repeatSuffixSpec m table := by
  unfold repeatSuffix repeatSuffixSpec
  rw [dropLast_drop_one]

/-- C5. For a non-root requested table, the schema opens with exactly two
text dimension columns: the linkage id column, whose final segment is
either the plain id key or the suffixed id key depending on whether the
disambiguating suffix (root marker and own repeat name stripped, trailing
group segments dropped, joined with dashes) is empty, followed by the row
id column; the source's splice order and the spec's stripping order agree. -/
theorem C5_repeat_link_columns (prior : Props) (tns : List String)
    (ds : List FieldDesc) (i : Nat) (table : String)
    (hurt : table ≠ "Submissions") :
    repeatSuffix (buildMetaDataMap prior ds) table =
      repeatSuffixSpec (buildMetaDataMap prior ds) table ∧
    (getFieldsModel prior tns table ds i)[0]? =
      some ⟨i,
        String.intercalate "/" ((strSplitOnChar table '.').drop 1) ++
          ("/" ++
            (if 0 < (repeatSuffixSpec (buildMetaDataMap prior ds) table).length then
              "__Submissions-" ++
                repeatSuffixSpec (buildMetaDataMap prior ds) table ++ "-id"
            else "__Submissions-id")),
        GDSType.TEXT, "dimension"⟩ ∧
    (getFieldsModel prior tns table ds i)[1]? =
      some ⟨i + 1,
        String.intercalate "/" ((strSplitOnChar table '.').drop 1) ++ "/__id",
        GDSType.TEXT, "dimension"⟩ := by
  have hb1 : (table == "Submissions") = false := beq_eq_false_iff_ne.mpr hurt
  have heq := repeatSuffix_eq_spec (buildMetaDataMap prior ds) table
  refine ⟨heq, ?_, ?_⟩
  · simp [getFieldsModel, hb1, addRepeatFields, repeatLinkageKey, heq]
  · simp [getFieldsModel, hb1, addRepeatFields]

/-- Witness for C5 at the doubly nested repeat table. -/
theorem C5_repeat_link_columns_witness :
    ("Submissions.club.person" : String) ≠ "Submissions" ∧
    (repeatSuffix
        (buildMetaDataMap []
          [⟨"/club", "club", "repeat"⟩, ⟨"/club/person", "person", "repeat"⟩])
        "Submissions.club.person" =
      repeatSuffixSpec
        (buildMetaDataMap []
          [⟨"/club", "club", "repeat"⟩, ⟨"/club/person", "person", "repeat"⟩])
        "Submissions.club.person" ∧
    (getFieldsModel [] []
        "Submissions.club.person"
        [⟨"/club", "club", "repeat"⟩, ⟨"/club/person", "person", "repeat"⟩] 0)[0]? =
      some ⟨0,
        String.intercalate "/"
            ((strSplitOnChar "Submissions.club.person" '.').drop 1) ++
          ("/" ++
            (if 0 <
                (repeatSuffixSpec
                  (buildMetaDataMap []
                    [⟨"/club", "club", "repeat"⟩,
                     ⟨"/club/person", "person", "repeat"⟩])
                  "Submissions.club.person").length then
              "__Submissions-" ++
                repeatSuffixSpec
                  (buildMetaDataMap []
                    [⟨"/club", "club", "repeat"⟩,
                     ⟨"/club/person", "person", "repeat"⟩])
                  "Submissions.club.person" ++ "-id"
            else "__Submissions-id")),
        GDSType.TEXT, "dimension"⟩ ∧
    (getFieldsModel [] []
        "Submissions.club.person"
        [⟨"/club", "club", "repeat"⟩, ⟨"/club/person", "person", "repeat"⟩] 0)[1]? =
      some ⟨1,
        String.intercalate "/"
            ((strSplitOnChar "Submissions.club.person" '.').drop 1) ++ "/__id",
        GDSType.TEXT, "dimension"⟩) :=
  ⟨by decide, C5_repeat_link_columns [] [] _ 0 _ (by decide)⟩

/-! C3: geo columns and their accuracy companions. -/

theorem getGDSType_latlon_dim (ty : String)
    (h : (getGDSType ty).2 = GDSType.LATITUDE_LONGITUDE) :
    (getGDSType ty).1 = "dimension" := by
  unfold getGDSType at *
  split at h <;> simp_all

theorem getGDSType_concept (ty : String) :
    (getGDSType ty).1 = "dimension" ∨ (getGDSType ty).1 = "metric" := by
  unfold getGDSType
  split <;> simp

theorem fieldsLoop_id (m : Props) (tn : List String) (urt : String) :
    ∀ (ds : List FieldDesc) (i j : Nat) (f : Field),
      (fieldsLoop m tn urt ds i)[j]? = some f → f.id = i + j := by
  intro ds
  induction ds with
  | nil => intro i j f h; simp [fieldsLoop] at h
  | cons d ds ih =>
    intro i j f h
    simp only [fieldsLoop] at h
    split at h
    · exact ih i j f h
    · split at h
      · exact ih i j f h
      · split at h
        · exact ih i j f h
        · split at h
          · split at h
            · match j with
              | 0 =>
                rw [List.getElem?_cons_zero] at h
                cases h
                simp
              | 1 =>
                rw [List.getElem?_cons_succ, List.getElem?_cons_zero] at h
                cases h
                simp
              | (k + 2) =>
                rw [List.getElem?_cons_succ, List.getElem?_cons_succ] at h
                have := ih (i + 2) k f h
                omega
            · match j with
              | 0 =>
                rw [List.getElem?_cons_zero] at h
                cases h
                simp
              | (k + 1) =>
                rw [List.getElem?_cons_succ] at h
                have := ih (i + 1) k f h
                omega
          · split at h
            · match j with
              | 0 =>
                rw [List.getElem?_cons_zero] at h
                cases h
                simp
              | (k + 1) =>
                rw [List.getElem?_cons_succ] at h
                have := ih (i + 1) k f h
                omega
            · rename_i hdim hmet
              rcases getGDSType_concept d.type with hc | hc
              · exact absurd (by simp [hc]) hdim
              · exact absurd (by simp [hc]) hmet

theorem fieldsLoop_geo (m : Props) (tn : List String) (urt : String) :
    ∀ (ds : List FieldDesc) (i j : Nat) (f : Field),
      (fieldsLoop m tn urt ds i)[j]? = some f →
      f.dataType = GDSType.LATITUDE_LONGITUDE →
      (fieldsLoop m tn urt ds i)[j + 1]? =
        some ⟨f.id + 1, f.name ++ "-accuracy", GDSType.NUMBER, "metric"⟩ := by
  intro ds
  induction ds with
  | nil => intro i j f h _; simp [fieldsLoop] at h
  | cons d ds ih =>
    intro i j f h hgeo
    simp only [fieldsLoop] at h ⊢
    by_cases h1 :
        (d.type == "structure" || d.name == "instanceID" || d.type == "repeat") = true
    · rw [if_pos h1] at h ⊢
      exact ih i j f h hgeo
    · rw [if_neg h1] at h ⊢
      by_cases h2 :
          (urt == "Submissions" && tn.contains (schemaTableChain m d.path)) = true
      · rw [if_pos h2] at h ⊢
        exact ih i j f h hgeo
      · rw [if_neg h2] at h ⊢
        by_cases h3 :
            (urt != "Submissions" && schemaTableChain m d.path != urt.drop 12) = true
        · rw [if_pos h3] at h ⊢
          exact ih i j f h hgeo
        · rw [if_neg h3] at h ⊢
          by_cases h4 : ((getGDSType d.type).1 == "dimension") = true
          · rw [if_pos h4] at h ⊢
            by_cases h5 :
                ((getGDSType d.type).2 == GDSType.LATITUDE_LONGITUDE) = true
            · rw [if_pos h5] at h ⊢
              match j with
              | 0 =>
                rw [List.getElem?_cons_zero] at h
                cases h
                simp
              | 1 =>
                rw [List.getElem?_cons_succ, List.getElem?_cons_zero] at h
                cases h
                simp at hgeo
              | (k + 2) =>
                rw [List.getElem?_cons_succ, List.getElem?_cons_succ] at h
                rw [List.getElem?_cons_succ, List.getElem?_cons_succ]
                exact ih (i + 2) k f h hgeo
            · rw [if_neg h5] at h ⊢
              match j with
              | 0 =>
                rw [List.getElem?_cons_zero] at h
                cases h
                have hg : (getGDSType d.type).2 = GDSType.LATITUDE_LONGITUDE := hgeo
                exact absurd (by simp [hg]) h5
              | (k + 1) =>
                rw [List.getElem?_cons_succ] at h
                rw [List.getElem?_cons_succ]
                exact ih (i + 1) k f h hgeo
          · rw [if_neg h4] at h ⊢
            by_cases h6 : ((getGDSType d.type).1 == "metric") = true
            · rw [if_pos h6] at h ⊢
              match j with
              | 0 =>
                rw [List.getElem?_cons_zero] at h
                cases h
                have := getGDSType_latlon_dim d.type hgeo
                rw [this] at h4
                simp at h4
              | (k + 1) =>
                rw [List.getElem?_cons_succ] at h
                rw [List.getElem?_cons_succ]
                exact ih (i + 1) k f h hgeo
            · rw [if_neg h6] at h ⊢
              exact ih (i + 1) j f h hgeo

/-- C3. In every schema built for the root table, the sequential ids are
strictly consecutive from the starting counter (never reset between
synthetic columns, a geo column, its accuracy companion, and the next
column), and every geo-coordinate column is immediately followed by a
synthetic metric column of numeric type whose name appends the accuracy
marker to the geo column's name. -/
theorem C3_geo_accuracy (prior : Props) (tns : List String)
    (ds : List FieldDesc) (i : Nat) :
    (∀ (j : Nat) (f : Field),
        (getFieldsModel prior tns "Submissions" ds i)[j]? = some f →
        f.id = i + j) ∧
    (∀ (j : Nat) (f : Field),
        (getFieldsModel prior tns "Submissions" ds i)[j]? = some f →
        f.dataType = GDSType.LATITUDE_LONGITUDE →
        (getFieldsModel prior tns "Submissions" ds i)[j + 1]? =
          some ⟨f.id + 1, f.name ++ "-accuracy", GDSType.NUMBER, "metric"⟩) := by
  have hF : getFieldsModel prior tns "Submissions" ds i =
      addSubmissionFields i ++
        fieldsLoop (buildMetaDataMap prior ds)
          ((tns.filter (· != "Submissions")).map (·.drop 12)) "Submissions" ds
          (i + 4) := rfl
  constructor
  · intro j f h
    rw [hF] at h
    simp only [addSubmissionFields, List.cons_append, List.nil_append] at h
    match j with
    | 0 => rw [List.getElem?_cons_zero] at h; cases h; simp
    | 1 =>
      rw [List.getElem?_cons_succ, List.getElem?_cons_zero] at h
      cases h; simp
    | 2 =>
      rw [List.getElem?_cons_succ, List.getElem?_cons_succ,
        List.getElem?_cons_zero] at h
      cases h; simp
    | 3 =>
      rw [List.getElem?_cons_succ, List.getElem?_cons_succ,
        List.getElem?_cons_succ, List.getElem?_cons_zero] at h
      cases h; simp
    | (k + 4) =>
      rw [List.getElem?_cons_succ, List.getElem?_cons_succ,
        List.getElem?_cons_succ, List.getElem?_cons_succ] at h
      have := fieldsLoop_id (buildMetaDataMap prior ds)
        ((tns.filter (· != "Submissions")).map (·.drop 12)) "Submissions" ds
        (i + 4) k f h
      omega
  · intro j f h hgeo
    rw [hF] at h ⊢
    simp only [addSubmissionFields, List.cons_append, List.nil_append] at h ⊢
    match j with
    | 0 => rw [List.getElem?_cons_zero] at h; cases h; simp at hgeo
    | 1 =>
      rw [List.getElem?_cons_succ, List.getElem?_cons_zero] at h
      cases h; simp at hgeo
    | 2 =>
      rw [List.getElem?_cons_succ, List.getElem?_cons_succ,
        List.getElem?_cons_zero] at h
      cases h; simp at hgeo
    | 3 =>
      rw [List.getElem?_cons_succ, List.getElem?_cons_succ,
        List.getElem?_cons_succ, List.getElem?_cons_zero] at h
      cases h; simp at hgeo
    | (k + 4) =>
      rw [List.getElem?_cons_succ, List.getElem?_cons_succ,
        List.getElem?_cons_succ, List.getElem?_cons_succ] at h
      rw [List.getElem?_cons_succ, List.getElem?_cons_succ,
        List.getElem?_cons_succ, List.getElem?_cons_succ]
      exact fieldsLoop_geo (buildMetaDataMap prior ds)
        ((tns.filter (· != "Submissions")).map (·.drop 12)) "Submissions" ds
        (i + 4) k f h hgeo

/-- Witness for C3 at a one-geo-field schema. -/
theorem C3_geo_accuracy_witness :
    (getFieldsModel [] [] "Submissions" [⟨"/loc", "loc", "geopoint"⟩] 0)[4]? =
      some ⟨4, "loc", GDSType.LATITUDE_LONGITUDE, "dimension"⟩ ∧
    (⟨4, "loc", GDSType.LATITUDE_LONGITUDE, "dimension"⟩ : Field).dataType =
      GDSType.LATITUDE_LONGITUDE ∧
    (getFieldsModel [] [] "Submissions" [⟨"/loc", "loc", "geopoint"⟩] 0)[5]? =
      some ⟨5, "loc-accuracy", GDSType.NUMBER, "metric"⟩ :=
  ⟨rfl, rfl,
    (C3_geo_accuracy [] [] [⟨"/loc", "loc", "geopoint"⟩] 0).2 4
      ⟨4, "loc", GDSType.LATITUDE_LONGITUDE, "dimension"⟩ rfl rfl⟩

/-! C2: projection of records with missing keys. -/

theorem mapME_const (f : α → Except Unit β) (c : β) :
    ∀ l : List α, (∀ a ∈ l, f a = Except.ok c) →
      mapME f l = Except.ok (List.replicate l.length c) := by
  intro l
  induction l with
  | nil => intro _; rfl
  | cons a as ih =>
    intro h
    have ha := h a (List.mem_cons_self a as)
    have hrest := ih fun b hb => h b (List.mem_cons_of_mem a hb)
    simp only [mapME, ha, hrest, List.length_cons, List.replicate_succ]

/-- C2 (counterexample). Projecting the literal empty record raises an
error rather than producing a row of nulls: the row-identity read
dereferences the missing id key before any column is processed. -/
theorem C2_empty_record_error :
    responseToRows "Submissions" [] ctx0
        [⟨4, "q1", GDSType.TEXT, "dimension"⟩] [JVal.obj []] =
      Except.error () := rfl

/-- C2 (amended). For every requested column list, projecting a root-table
record that carries only its row-identity key yields one row in which every
column's value is null and raises no error, provided no column's navigation
path starts at the identity key itself: an absent intermediate key ends the
walk with null rather than an error. -/
theorem C2_missing_keys_all_null (m : Props) (ctx : ConvertCtx)
    (cols : List Field) (s : String)
    (h1 : cols ≠ []) (h2 : cols.all colAvoidsId = true) :
    responseToRows "Submissions" m ctx cols [JVal.obj [("__id", JVal.str s)]] =
      Except.ok [⟨List.replicate cols.length JVal.null⟩] := by
  have hfield : ∀ c ∈ cols,
      projectField m ("Submissions" == "Submissions") ctx
        ((strSplitOnChar s ':').get? 1) (JVal.obj [("__id", JVal.str s)]) c =
      Except.ok JVal.null := by
    intro c hc
    have hca : colAvoidsId c = true := by
      rw [List.all_eq_true] at h2
      exact h2 c hc
    unfold colAvoidsId at hca
    cases hm : handleGeoAccuracyField (strSplitOnChar c.name '/') with
    | error e => rw [hm] at hca; simp at hca
    | ok L =>
      cases L with
      | nil => rw [hm] at hca; simp at hca
      | cons s0 rest =>
        rw [hm] at hca
        have hs0 : s0 ≠ "__id" := by simpa using hca
        have hlook : jLookup [("__id", JVal.str s)] s0 = none := by
          simp [jLookup, beq_eq_false_iff_ne.mpr (Ne.symm hs0)]
        simp only [projectField, bind, Except.bind, pure, Except.pure, hm,
          navigate, hlook]
        rfl
  have hrec : projectRecord m "Submissions" ctx cols
      (JVal.obj [("__id", JVal.str s)]) =
      Except.ok ⟨List.replicate cols.length JVal.null⟩ := by
    show bind
        (mapME
          (projectField m ("Submissions" == "Submissions") ctx
            ((strSplitOnChar s ':').get? 1) (JVal.obj [("__id", JVal.str s)]))
          cols)
        (fun vals => (pure ⟨vals⟩ : Except Unit Row)) =
      Except.ok ⟨List.replicate cols.length JVal.null⟩
    rw [mapME_const _ _ cols hfield]
    rfl
  simp only [responseToRows, mapME, hrec]

/-- Witness for C2 at a one-column request. -/
theorem C2_missing_keys_all_null_witness :
    ([⟨4, "q1", GDSType.TEXT, "dimension"⟩] : List Field) ≠ [] ∧
    ([⟨4, "q1", GDSType.TEXT, "dimension"⟩] : List Field).all colAvoidsId = true ∧
    responseToRows "Submissions" [] ctx0
        [⟨4, "q1", GDSType.TEXT, "dimension"⟩]
        [JVal.obj [("__id", JVal.str "uuid:abc")]] =
      Except.ok [⟨List.replicate 1 JVal.null⟩] :=
  ⟨by decide, by decide,
    C2_missing_keys_all_null [] ctx0 [⟨4, "q1", GDSType.TEXT, "dimension"⟩]
      "uuid:abc" (by decide) (by decide)⟩

/-! C4: shape of the projected row set. -/

theorem mapME_ok_length (f : α → Except Unit β) :
    ∀ (l : List α) (l' : List β), mapME f l = Except.ok l' → l'.length = l.length := by
  intro l
  induction l with
  | nil =>
    intro l' h
    simp only [mapME] at h
    cases h
    rfl
  | cons a as ih =>
    intro l' h
    simp only [mapME] at h
    cases hfa : f a with
    | error e => rw [hfa] at h; exact Except.noConfusion h
    | ok b =>
      rw [hfa] at h
      cases hrest : mapME f as with
      | error e => rw [hrest] at h; exact Except.noConfusion h
      | ok bs =>
        rw [hrest] at h
        cases h
        simp [ih bs hrest]

theorem mapME_ok_get (f : α → Except Unit β) :
    ∀ (l : List α) (l' : List β) (i : Nat) (b : β),
      mapME f l = Except.ok l' → l'[i]? = some b →
      ∃ a, l[i]? = some a ∧ f a = Except.ok b := by
  intro l
  induction l with
  | nil =>
    intro l' i b h hget
    simp only [mapME] at h
    cases h
    simp at hget
  | cons a as ih =>
    intro l' i b h hget
    simp only [mapME] at h
    cases hfa : f a with
    | error e => rw [hfa] at h; exact Except.noConfusion h
    | ok b0 =>
      rw [hfa] at h
      cases hrest : mapME f as with
      | error e => rw [hrest] at h; exact Except.noConfusion h
      | ok bs =>
        rw [hrest] at h
        cases h
        match i with
        | 0 =>
          rw [List.getElem?_cons_zero] at hget
          cases hget
          exact ⟨a, List.getElem?_cons_zero, hfa⟩
        | (k + 1) =>
          rw [List.getElem?_cons_succ] at hget
          obtain ⟨a', ha', hfa'⟩ := ih bs k b hrest hget
          exact ⟨a', by rw [List.getElem?_cons_succ]; exact ha', hfa'⟩

theorem projectRecord_ok_inv (m : Props) (table : String) (ctx : ConvertCtx)
    (cols : List Field) (rec : JVal) (r : Row)
    (h : projectRecord m table ctx cols rec = Except.ok r) :
    ∃ iid vals, extractInstanceID m table rec = Except.ok iid ∧
      mapME (projectField m (table == "Submissions") ctx iid rec) cols =
        Except.ok vals ∧
      r = ⟨vals⟩ := by
  cases hext : extractInstanceID m table rec with
  | error e =>
    exfalso
    have hbad : projectRecord m table ctx cols rec = Except.error e := by
      show bind (extractInstanceID m table rec)
          (fun iid =>
            bind
              (mapME (projectField m (table == "Submissions") ctx iid rec) cols)
              (fun vals => (pure ⟨vals⟩ : Except Unit Row))) =
        Except.error e
      rw [hext]
      rfl
    rw [hbad] at h
    exact Except.noConfusion h
  | ok iid =>
    cases hmap :
        mapME (projectField m (table == "Submissions") ctx iid rec) cols with
    | error e =>
      exfalso
      have hbad : projectRecord m table ctx cols rec = Except.error e := by
        show bind (extractInstanceID m table rec)
            (fun iid =>
              bind
                (mapME (projectField m (table == "Submissions") ctx iid rec) cols)
                (fun vals => (pure ⟨vals⟩ : Except Unit Row))) =
          Except.error e
        rw [hext]
        show bind
            (mapME (projectField m (table == "Submissions") ctx iid rec) cols)
            (fun vals => (pure ⟨vals⟩ : Except Unit Row)) = Except.error e
        rw [hmap]
        rfl
      rw [hbad] at h
      exact Except.noConfusion h
    | ok vals =>
      have hok : projectRecord m table ctx cols rec = Except.ok ⟨vals⟩ := by
        show bind (extractInstanceID m table rec)
            (fun iid =>
              bind
                (mapME (projectField m (table == "Submissions") ctx iid rec) cols)
                (fun vals => (pure ⟨vals⟩ : Except Unit Row))) =
          Except.ok ⟨vals⟩
        rw [hext]
        show bind
            (mapME (projectField m (table == "Submissions") ctx iid rec) cols)
            (fun vals => (pure ⟨vals⟩ : Except Unit Row)) = Except.ok ⟨vals⟩
        rw [hmap]
        rfl
      rw [hok] at h
      exact ⟨iid, vals, rfl, hmap, (Except.ok.inj h).symm⟩

/-- C4 (counterexample). responseToRows does not return one row per input
record for every record array: a record lacking the row-identity key makes
the whole call raise, returning no row list at all. -/
theorem C4_no_rows_on_missing_identity :
    responseToRows "Submissions" [] ctx0
        [⟨0, "__system/submitterName", GDSType.TEXT, "dimension"⟩,
         ⟨1, "__id", GDSType.TEXT, "dimension"⟩]
        [JVal.obj [("note", JVal.str "x")]] = Except.error () ∧
    ∀ rows : List Row,
      responseToRows "Submissions" [] ctx0
          [⟨0, "__system/submitterName", GDSType.TEXT, "dimension"⟩,
           ⟨1, "__id", GDSType.TEXT, "dimension"⟩]
          [JVal.obj [("note", JVal.str "x")]] ≠ Except.ok rows := by
  refine ⟨rfl, fun rows h => ?_⟩
  have e : responseToRows "Submissions" [] ctx0
      [⟨0, "__system/submitterName", GDSType.TEXT, "dimension"⟩,
       ⟨1, "__id", GDSType.TEXT, "dimension"⟩]
      [JVal.obj [("note", JVal.str "x")]] = Except.error () := rfl
  rw [e] at h
  exact Except.noConfusion h

/-- C4 (amended). Whenever responseToRows completes without raising, it
returns exactly one row per input record, in input order, and each row
holds exactly one converted value per requested column, positionally
aligned with the column order of the call. -/
theorem C4_projection_shape (table : String) (m : Props) (ctx : ConvertCtx)
    (cols : List Field) (recs : List JVal) (rows : List Row)
    (h : responseToRows table m ctx cols recs = Except.ok rows) :
    rows.length = recs.length ∧
    ∀ (i : Nat) (r : Row), rows[i]? = some r →
      ∃ rec, recs[i]? = some rec ∧
        projectRecord m table ctx cols rec = Except.ok r ∧
        r.values.length = cols.length ∧
        ∀ (j : Nat) (v : JVal), r.values[j]? = some v →
          ∃ c, cols[j]? = some c ∧
            ∃ iid, extractInstanceID m table rec = Except.ok iid ∧
              projectField m (table == "Submissions") ctx iid rec c =
                Except.ok v := by
  refine ⟨mapME_ok_length _ _ _ h, ?_⟩
  intro i r hr
  obtain ⟨rec, hreci, hproj⟩ := mapME_ok_get _ _ _ _ _ h hr
  obtain ⟨iid, vals, hext, hmap, hrv⟩ :=
    projectRecord_ok_inv m table ctx cols rec r hproj
  subst hrv
  refine ⟨rec, hreci, hproj, mapME_ok_length _ _ _ hmap, ?_⟩
  intro j v hv
  obtain ⟨c, hc, hfc⟩ := mapME_ok_get _ _ _ _ _ hmap hv
  exact ⟨c, hc, iid, hext, hfc⟩

/-- Witness for C4 at a one-column, one-record success. -/
theorem C4_projection_shape_witness :
    responseToRows "Submissions" [] ctx0
        [⟨4, "q1", GDSType.TEXT, "dimension"⟩]
        [JVal.obj [("__id", JVal.str "uuid:a"), ("q1", JVal.str "hello")]] =
      Except.ok [⟨[JVal.str "hello"]⟩] ∧
    ([(⟨[JVal.str "hello"]⟩ : Row)]).length =
      ([JVal.obj [("__id", JVal.str "uuid:a"), ("q1", JVal.str "hello")]]).length :=
  ⟨rfl,
    (C4_projection_shape "Submissions" [] ctx0
      [⟨4, "q1", GDSType.TEXT, "dimension"⟩]
      [JVal.obj [("__id", JVal.str "uuid:a"), ("q1", JVal.str "hello")]]
      [⟨[JVal.str "hello"]⟩] rfl).1⟩

/-! C10: dashed source names are unreachable through the substituted
column names. -/

theorem dashToUnderscore_ne (n : String) (h : '-' ∈ n.data) :
    dashToUnderscore n ≠ n := by
  intro he
  have hd : (n.data.map fun c => if c = '-' then '_' else c) = n.data :=
    congrArg String.data he
  have key : ∀ l : List Char,
      (l.map fun c => if c = '-' then '_' else c) = l → '-' ∈ l → False := by
    intro l
    induction l with
    | nil => intro _ hm; cases hm
    | cons c cs ih =>
      intro hmap hm
      rw [List.map_cons] at hmap
      have h1 := List.head_eq_of_cons_eq hmap
      have h2 := List.tail_eq_of_cons_eq hmap
      rcases List.mem_cons.mp hm with hc | hc
      · rw [← hc] at h1
        simp at h1
      · exact ih h2 hc
  exact key n.data hd h

theorem dash_notMem_dashToUnderscore (n : String) :
    '-' ∉ (dashToUnderscore n).data := by
  intro h
  have h' : '-' ∈ n.data.map fun c => if c = '-' then '_' else c := h
  obtain ⟨c, hc, hfc⟩ := List.mem_map.mp h'
  by_cases hcd : c = '-'
  · rw [if_pos hcd] at hfc
    exact absurd hfc (by decide)
  · rw [if_neg hcd] at hfc
    exact hcd hfc

theorem charsContain_false_of_head (c : Char) (pat : List Char) :
    ∀ l : List Char, c ∉ l → charsContain (c :: pat) l = false := by
  intro l
  induction l with
  | nil => intro _; rfl
  | cons a as ih =>
    intro h
    have ha : (c == a) = false :=
      beq_eq_false_iff_ne.mpr fun he => h (he ▸ List.mem_cons_self a as)
    have has : c ∉ as := fun he => h (List.mem_cons_of_mem a he)
    simp only [charsContain, List.isPrefixOf, ha, Bool.false_and,
      Bool.false_or]
    exact ih has

/-- C10. A leaf whose source name contains a dash is exposed in the root
schema under the name with every dash replaced by an underscore; that
substituted name differs from the source name, and row projection navigates
with the substituted segment, so a record storing the value only under the
original dashed key projects null for that column. -/
theorem C10_dashed_name_unreachable (p n ty : String) (i : Nat) (v : JVal)
    (s : String) (ctx : ConvertCtx)
    (hdrop : p.drop 1 = n)
    (hsplit : strSplitOnChar p '/' = ["", n])
    (hty1 : ty ≠ "structure") (hty2 : ty ≠ "repeat")
    (hdash : '-' ∈ n.data)
    (hsingle : strSplitOnChar (dashToUnderscore n) '/' = [dashToUnderscore n])
    (hnotid : dashToUnderscore n ≠ "__id") :
    ∃ f : Field,
      (getFieldsModel [] [] "Submissions" [⟨p, n, ty⟩] i)[4]? = some f ∧
      f.name = dashToUnderscore n ∧
      f.name ≠ n ∧
      responseToRows "Submissions" (buildMetaDataMap [] [⟨p, n, ty⟩]) ctx [f]
          [JVal.obj [("__id", JVal.str s), (n, v)]] =
        Except.ok [⟨[JVal.null]⟩] := by
  have hm : buildMetaDataMap [] [⟨p, n, ty⟩] = [] := by
    simp only [buildMetaDataMap, List.foldl_cons, List.foldl_nil, mapClear]
    rw [if_neg (by simp [beq_eq_false_iff_ne.mpr hty1,
      beq_eq_false_iff_ne.mpr hty2])]
  have hni : n ≠ "instanceID" := by
    rintro rfl
    exact absurd hdash (by decide)
  have hchain : schemaTableChain [] p = "" := by
    unfold schemaTableChain
    rw [hsplit]
    rfl
  have hskip :
      ((⟨p, n, ty⟩ : FieldDesc).type == "structure" ||
        (⟨p, n, ty⟩ : FieldDesc).name == "instanceID" ||
        (⟨p, n, ty⟩ : FieldDesc).type == "repeat") = false := by
    simp only [beq_eq_false_iff_ne.mpr hty1, beq_eq_false_iff_ne.mpr hni,
      beq_eq_false_iff_ne.mpr hty2, Bool.or_self, Bool.or_false]
  -- the single descriptor always contributes its main column first
  have hloop : ∃ rest : List Field,
      fieldsLoop [] [] "Submissions" [⟨p, n, ty⟩] (i + 4) =
        ⟨i + 4, dashToUnderscore (p.drop 1), (getGDSType ty).2,
          (getGDSType ty).1⟩ :: rest := by
    simp only [fieldsLoop]
    rw [if_neg (by rw [hskip]; exact Bool.false_ne_true), hchain]
    rw [if_neg (by simp)]
    rw [if_neg (by simp)]
    rcases getGDSType_concept ty with hc | hc
    · rw [if_pos (by simp [hc])]
      by_cases hg : ((getGDSType ty).2 == GDSType.LATITUDE_LONGITUDE) = true
      · rw [if_pos hg]
        exact ⟨_, by rw [hc]⟩
      · rw [if_neg hg]
        exact ⟨_, by rw [hc]⟩
    · rw [if_neg (by simp [hc]), if_pos (by simp [hc])]
      exact ⟨_, by rw [hc]⟩
  obtain ⟨rest, hloop⟩ := hloop
  have hF : getFieldsModel [] [] "Submissions" [⟨p, n, ty⟩] i =
      addSubmissionFields i ++
        fieldsLoop [] [] "Submissions" [⟨p, n, ty⟩] (i + 4) := by
    show addSubmissionFields i ++
        fieldsLoop (buildMetaDataMap [] [⟨p, n, ty⟩]) [] "Submissions"
          [⟨p, n, ty⟩] (i + 4) = _
    rw [hm]
  refine ⟨⟨i + 4, dashToUnderscore n, (getGDSType ty).2, (getGDSType ty).1⟩,
    ?_, rfl, dashToUnderscore_ne n hdash, ?_⟩
  · rw [hF, hloop, hdrop]
    simp [addSubmissionFields]
  · rw [hm]
    have hcc : charsContain "-accuracy".data (dashToUnderscore n).data = false :=
      charsContain_false_of_head '-' "accuracy".data (dashToUnderscore n).data
        (dash_notMem_dashToUnderscore n)
    have hgeo2 : handleGeoAccuracyField
        (strSplitOnChar (dashToUnderscore n) '/') =
        Except.ok [dashToUnderscore n] := by
      rw [hsingle]
      simp only [handleGeoAccuracyField, List.getLast?_singleton, hcc]
      rfl
    have hlook : jLookup [("__id", JVal.str s), (n, v)] (dashToUnderscore n) =
        none := by
      simp [jLookup, beq_eq_false_iff_ne.mpr (Ne.symm hnotid),
        beq_eq_false_iff_ne.mpr (Ne.symm (dashToUnderscore_ne n hdash))]
    have hpf : projectField [] ("Submissions" == "Submissions") ctx
        ((strSplitOnChar s ':').get? 1) (JVal.obj [("__id", JVal.str s), (n, v)])
        ⟨i + 4, dashToUnderscore n, (getGDSType ty).2, (getGDSType ty).1⟩ =
        Except.ok JVal.null := by
      simp only [projectField, bind, Except.bind, pure, Except.pure, hgeo2,
        navigate, hlook]
      rfl
    have hmapf : mapME
        (projectField [] ("Submissions" == "Submissions") ctx
          ((strSplitOnChar s ':').get? 1)
          (JVal.obj [("__id", JVal.str s), (n, v)]))
        [⟨i + 4, dashToUnderscore n, (getGDSType ty).2, (getGDSType ty).1⟩] =
        Except.ok [JVal.null] := by
      simp only [mapME, hpf]
    have hrec : projectRecord [] "Submissions" ctx
        [⟨i + 4, dashToUnderscore n, (getGDSType ty).2, (getGDSType ty).1⟩]
        (JVal.obj [("__id", JVal.str s), (n, v)]) =
        Except.ok ⟨[JVal.null]⟩ := by
      show bind
          (mapME
            (projectField [] ("Submissions" == "Submissions") ctx
              ((strSplitOnChar s ':').get? 1)
              (JVal.obj [("__id", JVal.str s), (n, v)]))
            [⟨i + 4, dashToUnderscore n, (getGDSType ty).2, (getGDSType ty).1⟩])
          (fun vals => (pure ⟨vals⟩ : Except Unit Row)) =
        Except.ok ⟨[JVal.null]⟩
      rw [hmapf]
      rfl
    simp only [responseToRows, mapME, hrec]

/-- Witness for C10 at a dashed top-level leaf. -/
theorem C10_dashed_name_unreachable_witness :
    ("/a-b" : String).drop 1 = "a-b" ∧
    strSplitOnChar "/a-b" '/' = ["", "a-b"] ∧
    ("string" : String) ≠ "structure" ∧
    ("string" : String) ≠ "repeat" ∧
    '-' ∈ ("a-b" : String).data ∧
    strSplitOnChar (dashToUnderscore "a-b") '/' = [dashToUnderscore "a-b"] ∧
    dashToUnderscore "a-b" ≠ "__id" ∧
    ∃ f : Field,
      (getFieldsModel [] [] "Submissions" [⟨"/a-b", "a-b", "string"⟩] 0)[4]? =
        some f ∧
      f.name = dashToUnderscore "a-b" ∧
      f.name ≠ "a-b" ∧
      responseToRows "Submissions"
          (buildMetaDataMap [] [⟨"/a-b", "a-b", "string"⟩]) ctx0 [f]
          [JVal.obj [("__id", JVal.str "uuid:x"), ("a-b", JVal.str "hello")]] =
        Except.ok [⟨[JVal.null]⟩] :=
  ⟨by decide, by decide, by decide, by decide, by decide, by decide, by decide,
    C10_dashed_name_unreachable "/a-b" "a-b" "string" 0 (JVal.str "hello")
      "uuid:x" ctx0 (by decide) (by decide) (by decide) (by decide) (by decide)
      (by decide) (by decide)⟩

end ODataConnector
